import Mathlib

/-!
Verification of the go3mf decoding pipeline against its specification.

This file gives a shallow embedding, in Lean 4, of the parts of the go3mf
repository that the verified properties talk about:

* the per-element XML decoders (`triangleDecoder.Start`, `vertexDecoder.Start`
  from `decoder.go`),
* the package-relationship walk (`Decoder.processOPC`,
  `Decoder.extractCoreAttachments`, `Decoder.addAttachment`),
* the concurrent auxiliary-part orchestration (`Decoder.processNonRootModels`,
  `Decoder.DecodeContext`),
* the streaming token-stack scan (`decodeModelFile`),
* the reflection-based extension lookups (`ExtensionsAttr.Get`,
  `Extensions.Get`).

Go machine integers are embedded as `Nat` with explicit `% 2^w` where the code
truncates.  Outcomes of the Go standard-library parsers (`strconv.ParseUint`,
`strconv.ParseFloat`) are boundary inputs: an attribute carries the value and
the error flag that the parser returned, exactly as consumed by the decoder
code.  Float32 coordinates are carried as their (uninterpreted) bit patterns:
the decoders only store them, never compute with them.
-/

/-- Result of parsing one XML attribute with a Go strconv parser, as consumed
by the element decoders.  `val` is the numeric value the parser returned (for
`ParseUint(s, 10, 24)` this is the parsed number, `0` on a syntax error, or
`2^24 - 1` on a range error; for `ParseFloat(s, 32)` it is the float32 bit
pattern of the returned value, `0` on a syntax error or the bits of plus or
minus infinity on a range error), and `err` records whether the parser
reported an error. -/
structure GoAttr where
  nameLocal : String
  val : Nat
  err : Bool
  deriving DecidableEq, Repr

/-- Structured non-fatal errors collected during decoding, following the
taxonomy of the `specerr` package: a parse-attribute error (present but
malformed attribute, tagged with whether the attribute is mandatory) or a
missing-mandatory-attribute error (attribute absent entirely). -/
inductive GError where
  | parseAttr (name : String) (required : Bool)
  | missingAttr (name : String)
  deriving DecidableEq, Repr

/-- Decoded triangle content.  Modelled from the spec: a `Triangle` packs
three 24-bit vertex indices together with a property reference (a
property-group id `pid` and three property indices); the packing helpers
(`ToUint24`, `SetPID`, `SetPIndices`) are not under `src/`, so the packed word
is represented as a plain record of its components. -/
structure Triangle where
  v1 : Nat
  v2 : Nat
  v3 : Nat
  pid : Nat
  p1 : Nat
  p2 : Nat
  p3 : Nat
  deriving DecidableEq, Repr

/-- Embedding of Go's `uint32(x)` conversion on a parsed `uint64` value. -/
def toUint32 (x : Nat) : Nat := x % 4294967296

/-- Embedding of `ToUint24`: truncation of a `uint32` to its low 24 bits. -/
def ToUint24 (x : Nat) : Nat := x % 16777216

/-- Embedding of `applyDefault` (decoder.go lines 517-522): return `val` when
the attribute was present (`noDef`), else the default. -/
def applyDefault (val defVal : Nat) (noDef : Bool) : Nat :=
  if noDef then val else defVal

/-- Loop state of `triangleDecoder.Start` (decoder.go lines 464-502): the
zero-initialised triangle `t` (fields `t1,t2,t3`), the local variables
`pid,p1,p2,p3` with their `has*` flags, and the accumulated attribute
errors. -/
structure TriSt where
  t1 : Nat
  t2 : Nat
  t3 : Nat
  pid : Nat
  p1 : Nat
  p2 : Nat
  p3 : Nat
  hasPID : Bool
  hasP1 : Bool
  hasP2 : Bool
  hasP3 : Bool
  errs : List GError
  deriving DecidableEq, Repr

/-- One iteration of the attribute loop in `triangleDecoder.Start`: every
attribute value is parsed (the parse outcome is `a.val`/`a.err`), the switch
updates the matching field, `required` stays `true` except for the four
property attributes, and a parse error appends a parse-attribute error. -/
def triStep (s : TriSt) (a : GoAttr) : TriSt :=
  let s' :=
    if a.nameLocal = "v1" then { s with t1 := ToUint24 (toUint32 a.val) } else
    if a.nameLocal = "v2" then { s with t2 := ToUint24 (toUint32 a.val) } else
    if a.nameLocal = "v3" then { s with t3 := ToUint24 (toUint32 a.val) } else
    if a.nameLocal = "pid" then { s with pid := toUint32 a.val, hasPID := true } else
    if a.nameLocal = "p1" then { s with p1 := toUint32 a.val, hasP1 := true } else
    if a.nameLocal = "p2" then { s with p2 := toUint32 a.val, hasP2 := true } else
    if a.nameLocal = "p3" then { s with p3 := toUint32 a.val, hasP3 := true } else s
  let required :=
    !(a.nameLocal == "pid" || a.nameLocal == "p1" ||
      a.nameLocal == "p2" || a.nameLocal == "p3")
  if a.err then { s' with errs := s'.errs ++ [GError.parseAttr a.nameLocal required] }
  else s'

/-- Embedding of `triangleDecoder.Start` (decoder.go lines 464-515).
`defaultPropertyIndex`/`defaultPropertyID` are the owning object's defaults
(`d.resource.PIndex`/`d.resource.PID`, wired in `trianglesDecoder.Start`).
Returns the mesh triangle list after the append together with the wrapped
error (`specerr.WrapIndex(errs, t, len(d.mesh.Triangles)-1)`) when any
attribute error was collected. -/
def triangleDecoderStart (defaultPropertyIndex defaultPropertyID : Nat)
    (attrs : List GoAttr) (triangles : List Triangle) :
    List Triangle × Option (Nat × List GError) :=
  let s := attrs.foldl triStep ⟨0, 0, 0, 0, 0, 0, 0, false, false, false, false, []⟩
  let p1 := applyDefault s.p1 defaultPropertyIndex s.hasP1
  let p2 := applyDefault s.p2 p1 s.hasP2
  let p3 := applyDefault s.p3 p1 s.hasP3
  let pid := applyDefault s.pid defaultPropertyID s.hasPID
  let t : Triangle := ⟨s.t1, s.t2, s.t3, pid, p1, p2, p3⟩
  (triangles ++ [t], if s.errs = [] then none else some (triangles.length, s.errs))

/-- Decoded vertex: three float32 coordinates carried as bit patterns. -/
structure Point3D where
  x : Nat
  y : Nat
  z : Nat
  deriving DecidableEq, Repr

/-- Loop state of `vertexDecoder.Start` (decoder.go lines 403-421): the
zero-initialised coordinates and the accumulated errors. -/
structure VertSt where
  x : Nat
  y : Nat
  z : Nat
  errs : List GError
  deriving DecidableEq, Repr

/-- One iteration of the attribute loop in `vertexDecoder.Start`: every
attribute is parsed as a 32-bit float (outcome `a.val`/`a.err`); a parse
error appends a parse-attribute error with `required = true`; the switch
stores `float32(val)` into the matching coordinate. -/
def vertexStep (s : VertSt) (a : GoAttr) : VertSt :=
  let s' :=
    if a.err then { s with errs := s.errs ++ [GError.parseAttr a.nameLocal true] } else s
  if a.nameLocal = "x" then { s' with x := a.val } else
  if a.nameLocal = "y" then { s' with y := a.val } else
  if a.nameLocal = "z" then { s' with z := a.val } else s'

/-- Embedding of `vertexDecoder.Start` (decoder.go lines 403-427): decode the
attributes, append exactly one vertex, and wrap any collected errors with the
vertex's index at append time (`len(d.mesh.Vertices)-1`). -/
def vertexDecoderStart (attrs : List GoAttr) (vertices : List Point3D) :
    List Point3D × Option (Nat × List GError) :=
  let s := attrs.foldl vertexStep ⟨0, 0, 0, []⟩
  let vertices' := vertices ++ [Point3D.mk s.x s.y s.z]
  (vertices', if s.errs = [] then none else some (vertices.length, s.errs))

/-- Helper describing the last parsed value of the attribute named `n` in an
attribute list; mirrors the overwrite-on-repeat behaviour of the decode
loops. -/
def lastVal (n : String) (attrs : List GoAttr) : Option Nat :=
  attrs.foldl (fun acc a => if a.nameLocal = n then some a.val else acc) none

/-- Helper: whether the attribute named `n` is present in the list. -/
def hasAttr (n : String) (attrs : List GoAttr) : Bool :=
  attrs.any (fun a => a.nameLocal = n)

/-- A package relationship: type URI and target path (core type of the repo,
referenced throughout part_001). -/
structure Relationship where
  relType : String
  path : String
  deriving DecidableEq, Repr

/-- The relationship type identifying a 3D model part.  The constant
`RelType3DModel` itself is declared outside `src/`; its concrete value is the
3MF one and is never inspected beyond equality. -/
def RelType3DModel : String :=
  "http://schemas.microsoft.com/3dmanufacturing/2013/01/3dmodel"

/-- Boundary model of a `packageFile`: its name, content type, declared
relationships, and whether opening and copying its stream succeeds (the
`copyFile` call in `addAttachment` can fail; the payload bytes themselves are
irrelevant to the verified properties). -/
structure PkgFile where
  name : String
  contentType : String
  copyOk : Bool
  rels : List Relationship
  deriving DecidableEq, Repr

/-- Boundary model of a `packageReader`: `Open` outcome, package-level
relationships, and the named parts.  `FindFileFromName` is name lookup over
`files` (both the reader's and a part's lookup resolve against the same
container). -/
structure Pkg where
  openErr : Option String
  rels : List Relationship
  files : List PkgFile
  deriving Repr

/-- Embedding of `FindFileFromName`: look a part up by name. -/
def findFile (files : List PkgFile) (name : String) : Option PkgFile :=
  files.find? (fun f => f.name == name)

/-- A stored attachment: path and content type (the copied stream is
opaque). -/
structure Attachment where
  path : String
  contentType : String
  deriving DecidableEq, Repr

/-- Embedding of `strings.EqualFold` at its boundary: case-insensitive
equality of paths, modelled as equality of the character sequences after
lower-casing each character. -/
def eqFold (a b : String) : Bool := a.data.map Char.toLower == b.data.map Char.toLower

/-- Embedding of `Decoder.addAttachment` (part_001 lines 336-350): if any
existing attachment's path matches the file name case-insensitively, return
the list unchanged (the source loop returns on the first match, which is
equivalent to this `any` test); otherwise append the attachment when copying
its stream succeeds. -/
def addAttachment (attachments : List Attachment) (file : PkgFile) : List Attachment :=
  if attachments.any (fun att => eqFold att.path file.name) then attachments
  else if file.copyOk then attachments ++ [Attachment.mk file.name file.contentType]
  else attachments

/-- Per-part decode result contributed to a `ChildModel`; the resource
payloads are opaque to the orchestrator and carried as `Nat` tags (the
`Scanner` type holding the real payloads is declared outside `src/`). -/
structure ChildModel where
  resources : List Nat
  relationships : List Relationship
  deriving DecidableEq, Repr

/-- The slice of the in-memory `Model` that the decode orchestrator mutates:
path, core resources, build items, the auxiliary-part table `Childs`,
attachments, and the two relationship lists. -/
structure CModel where
  path : String
  resources : List Nat
  buildItems : List Nat
  childs : List (String × ChildModel)
  attachments : List Attachment
  rootRelationships : List Relationship
  relationships : List Relationship
  deriving DecidableEq, Repr

/-- Insert (or reset) the placeholder `ChildModel` for a part path, as
`model.Childs[file.Name()] = new(ChildModel)` does. -/
def setChildPlaceholder (childs : List (String × ChildModel)) (path : String) :
    List (String × ChildModel) :=
  if childs.any (fun p => p.1 == path) then
    childs.map (fun p => if p.1 == path then (p.1, ChildModel.mk [] []) else p)
  else childs ++ [(path, ChildModel.mk [] [])]

/-- Append a relationship to the `ChildModel` stored for a part path, as
`child.Relationships = append(child.Relationships, rel)` does. -/
def addChildRel (childs : List (String × ChildModel)) (path : String)
    (rel : Relationship) : List (String × ChildModel) :=
  childs.map (fun p =>
    if p.1 == path then (p.1, { p.2 with relationships := p.2.relationships ++ [rel] })
    else p)

/-- Embedding of `Decoder.extractCoreAttachments` (part_001 lines 312-334):
walk a model part's relationships; at the root, model-type targets become
auxiliary parts (appended to `nonRootModels` with an empty `ChildModel`
placeholder) while other targets become attachments plus model-scope
relationships; at a non-root part, only non-model targets are attached, and
only when that part already has a `ChildModel` entry. -/
def extractCoreAttachments (pkg : Pkg) (modelFile : PkgFile) (isRoot : Bool)
    (st : CModel × List PkgFile) : CModel × List PkgFile :=
  modelFile.rels.foldl
    (fun (st : CModel × List PkgFile) rel =>
      let m := st.1
      let nr := st.2
      match findFile pkg.files rel.path with
      | none => (m, nr)
      | some file =>
        if isRoot then
          if rel.relType = RelType3DModel then
            ({ m with childs := setChildPlaceholder m.childs file.name }, nr ++ [file])
          else
            ({ m with attachments := addAttachment m.attachments file,
                      relationships := m.relationships ++ [rel] }, nr)
        else if rel.relType ≠ RelType3DModel then
          if m.childs.any (fun p => p.1 == modelFile.name) then
            ({ m with attachments := addAttachment m.attachments file,
                      childs := addChildRel m.childs modelFile.name rel }, nr)
          else (m, nr)
        else (m, nr))
    st

/-- Loop body of `Decoder.processOPC` (part_001 lines 289-305) over the
package relationships, carrying the model, the discovered `nonRootModels`
and the root file found so far; returns with an error as soon as a model-type
relationship points to a part that is not in the container, and reports the
missing-root error after the walk otherwise. -/
def processOPCLoop (pkg : Pkg) (m : CModel) (rootFile : Option PkgFile)
    (nonRootModels : List PkgFile) :
    List Relationship → CModel × List PkgFile × Except String PkgFile
  | [] =>
    match rootFile with
    | some rf => (m, nonRootModels, Except.ok rf)
    | none => (m, nonRootModels, Except.error "package does not have root model")
  | r :: rs =>
    if r.relType = RelType3DModel then
      match findFile pkg.files r.path with
      | none =>
        (m, nonRootModels, Except.error "package root model points to an unexisting file")
      | some rf =>
        let m1 := { m with path := rf.name }
        let st2 := extractCoreAttachments pkg rf true (m1, nonRootModels)
        let m3 := st2.2.foldl
          (fun mm file => (extractCoreAttachments pkg file false (mm, st2.2)).1) st2.1
        processOPCLoop pkg m3 (some rf) st2.2 rs
    else
      match findFile pkg.files r.path with
      | some att =>
        processOPCLoop pkg
          { m with rootRelationships := m.rootRelationships ++ [r],
                   attachments := addAttachment m.attachments att }
          rootFile nonRootModels rs
      | none => processOPCLoop pkg m rootFile nonRootModels rs

/-- Embedding of `Decoder.processOPC` (part_001 lines 284-310): open the
container, then walk the package relationships; the returned triple is the
(possibly mutated) model, the discovered auxiliary parts, and either the root
model part or a fatal error. -/
def processOPC (pkg : Pkg) (m : CModel) :
    CModel × List PkgFile × Except String PkgFile :=
  match pkg.openErr with
  | some e => (m, [], Except.error e)
  | none => processOPCLoop pkg m none [] pkg.rels

/-- Result of `decodeModelFile` for one model part, at the orchestrator's
boundary: the part path, the decoded resources and build items (opaque
payload tags, the `Scanner` type is declared outside `src/`), the collected
warnings, and the scanner's terminal error. -/
structure ScannerR where
  modelPath : String
  resources : List Nat
  buildItems : List Nat
  warnings : List String
  err : Option String
  deriving DecidableEq, Repr, Inhabited

/-- Embedding of `Decoder.addChildModelFile` (part_001 lines 225-230): store
the part's resources into its `ChildModel` and append its warnings to the
decoder's warning list. -/
def addChildModelFile (warnings : List String) (p : ScannerR) (m : CModel) :
    CModel × List String :=
  ({ m with childs := m.childs.map (fun q =>
      if q.1 = p.modelPath then (q.1, { q.2 with resources := p.resources }) else q) },
   warnings ++ p.warnings)

/-- Embedding of `Decoder.addModelFile` (part_001 lines 232-240): append the
root part's build items, overwrite the model resources, and append its
warnings. -/
def addModelFile (warnings : List String) (p : ScannerR) (m : CModel) :
    CModel × List String :=
  ({ m with buildItems := m.buildItems ++ p.buildItems, resources := p.resources },
   warnings ++ p.warnings)

/-- Embedding of `Decoder.processNonRootModels` (part_001 lines 242-282).
`results` holds, per discovery index, the scanner produced by that part's
decoding task; `rangeOrder` is the order in which the completed tasks appear
when the `sync.Map` is ranged over (any permutation of the indices, since
task completion order is arbitrary).  On any task error the first error is
returned and nothing is merged; otherwise the collected indices are sorted
ascending (`sort.Ints`) and the results merged in that order. -/
def processNonRootModels (results : List ScannerR) (rangeOrder : List Nat)
    (m : CModel) (warnings : List String) : CModel × List String × Option String :=
  match results.find? (fun r => r.err.isSome) with
  | some r => (m, warnings, r.err)
  | none =>
    let indices := List.insertionSort (· ≤ ·) rangeOrder
    let mw := indices.foldl
      (fun (mw : CModel × List String) i =>
        addChildModelFile mw.2 (results.getD i default) mw.1) (m, warnings)
    (mw.1, mw.2, none)

/-- Events observable in a run of `Decoder.DecodeContext`: completion of an
auxiliary part's decode task, and the synchronous decode of the root part. -/
inductive DecodeEvent where
  | auxDecoded (i : Nat)
  | rootDecoded
  deriving DecidableEq, Repr

/-- Embedding of `Decoder.DecodeContext` (part_001 lines 184-193) together
with `processRootModel` (lines 209-223).  `decodeResult` gives, per part
path, the scanner that `decodeModelFile` produces for that part (the XML
phase is modelled separately by `scanLoop` below); `rangeOrder` is the task
completion order as in `processNonRootModels`.  The trace records the decode
events in program order: `processNonRootModels` completes all auxiliary
decodes (it waits on its `sync.WaitGroup`) before `processRootModel` decodes
the root part.  The final promotion of warnings in strict mode is modelled
from the spec: strict mode converts the presence of any warning into a
returned error only after the full decode completes (the `Scanner` machinery
implementing strictness is not under `src/`). -/
def DecodeContext (pkg : Pkg) (decodeResult : String → ScannerR)
    (rangeOrder : List Nat) (strict : Bool) (m0 : CModel) :
    CModel × List String × Option String × List DecodeEvent :=
  match processOPC pkg m0 with
  | (m1, _, Except.error e) => (m1, [], some e, [])
  | (m1, nonRootModels, Except.ok rootFile) =>
    let results := nonRootModels.map (fun f => decodeResult f.name)
    let auxEvents := rangeOrder.map DecodeEvent.auxDecoded
    match processNonRootModels results rangeOrder m1 [] with
    | (m2, w2, some e) => (m2, w2, some e, auxEvents)
    | (m2, w2, none) =>
      let rootScanner := decodeResult rootFile.name
      let mw := addModelFile w2 rootScanner m2
      let finalErr :=
        match rootScanner.err with
        | some e => some e
        | none =>
          if strict && !mw.2.isEmpty then some "strict mode: warnings promoted to error"
          else none
      (mw.1, mw.2, finalErr, auxEvents ++ [DecodeEvent.rootDecoded])

/-- An XML name: namespace URI and local name (embedding of `xml.Name`). -/
structure XName where
  space : String
  localName : String
  deriving DecidableEq, Repr

/-- An XML attribute token as delivered by the token stream. -/
structure SAttr where
  name : XName
  value : String
  deriving DecidableEq, Repr

/-- XML tokens delivered by the `XMLDecoder` token stream (part_001 lines
18-25): start element, character data, end element, or a stream read error
(`x.Token()` failing with something other than `io.EOF`; end of stream is the
end of the list). -/
inductive Token where
  | startEl (n : XName) (attrs : List SAttr)
  | charData (s : String)
  | endEl (n : XName)
  | errTok (msg : String)
  deriving DecidableEq, Repr

/-- Terminal errors of the scan loop: end of stream reported by `Skip`,
a token stream error, context cancellation, or the panic that popping an
empty decoder stack would raise in Go. -/
inductive ScanErr where
  | eof
  | tokenErr (msg : String)
  | cancelled
  | panicErr
  deriving DecidableEq, Repr

/-- The scanner state shared by all node decoders of one model part: the
collected warning list plus the partially-built model data, the latter left
abstract as `σ`.  Modelled from the spec where it goes beyond `src/`: the
`Scanner` struct itself is declared outside `src/`; per spec section 7,
collecting a warning never sets the scanner's terminal error, which the loop
below therefore keeps outside this state. -/
structure ScanState (σ : Type) where
  warnings : List String
  user : σ
  deriving DecidableEq, Repr

/-- A node decoder for the streaming scan (the `NodeDecoder` interface):
its child table keyed by XML name, and its start / character-data /
end-of-element hooks acting on the shared scanner state.  The child table is
an association list, representing the finite name switch each concrete
decoder's `Child` method performs. -/
inductive GNode (σ : Type) where
  | mk (children : List (XName × GNode σ))
       (onStart : List SAttr → ScanState σ → ScanState σ)
       (onText : String → ScanState σ → ScanState σ)
       (onEnd : ScanState σ → ScanState σ)

/-- Child table of a node decoder. -/
def GNode.children : GNode σ → List (XName × GNode σ)
  | .mk c _ _ _ => c

/-- Start-of-element hook of a node decoder. -/
def GNode.onStart : GNode σ → List SAttr → ScanState σ → ScanState σ
  | .mk _ f _ _ => f

/-- Character-data hook of a node decoder. -/
def GNode.onText : GNode σ → String → ScanState σ → ScanState σ
  | .mk _ _ f _ => f

/-- End-of-element hook of a node decoder. -/
def GNode.onEnd : GNode σ → ScanState σ → ScanState σ
  | .mk _ _ _ f => f

/-- Embedding of the `Child` dispatch: the first child decoder registered for
the given name, or `none` (in which case the loop skips the subtree). -/
def findChild : List (XName × GNode σ) → XName → Option (GNode σ)
  | [], _ => none
  | (k, v) :: rest, n => if k = n then some v else findChild rest n

/-- Embedding of `XMLDecoder.Skip`: read and discard tokens through the end
element matching the already-consumed start element, at nesting depth `d`.
Returns the rest of the stream and `ScanErr.eof` if the stream ends first or
the underlying token error if one occurs. -/
def skipSub : List Token → Nat → List Token × Option ScanErr
  | [], _ => ([], some ScanErr.eof)
  | Token.startEl _ _ :: rest, d => skipSub rest (d + 1)
  | Token.charData _ :: rest, d => skipSub rest d
  | Token.endEl _ :: rest, d =>
    match d with
    | 0 => (rest, none)
    | d' + 1 => skipSub rest d'
  | Token.errTok msg :: rest, _ => (rest, some (ScanErr.tokenErr msg))

theorem skipSub_length_le (ts : List Token) (d : Nat) :
    (skipSub ts d).1.length ≤ ts.length := by
  induction ts generalizing d with
  | nil => simp [skipSub]
  | cons t rest ih =>
    cases t with
    | startEl n as => exact le_trans (ih (d + 1)) (Nat.le_succ _)
    | charData s => exact le_trans (ih d) (Nat.le_succ _)
    | endEl n =>
      cases d with
      | zero => simp [skipSub]
      | succ d' => exact le_trans (ih d') (Nat.le_succ _)
    | errTok m => simp [skipSub]

/-- Embedding of the token loop of `decodeModelFile` (part_001 lines
103-143).  `stack`/`names` are the decoder and element-name stacks (head is
the top, mirroring the appended-at-the-end Go slices), `cur`/`curName` the
current decoder and its element name, `st` the scanner state.  On a start
element the current decoder is asked for a child: if none is offered the
whole subtree is skipped via `skipSub` without instantiating any decoder;
otherwise the child is pushed and its start hook runs (its return value is
discarded by the loop, line 118).  Character data goes to the current
decoder's text hook.  An end element pops only when its name matches the
recorded current name, and is followed by the periodic cancellation poll
(`ctxDone` models the context's state; the 4 MiB byte threshold is abstracted
to polling at every end element, which is irrelevant to the verified
properties).  Returns the final state, the terminal error (as in the source,
reaching the end of the stream is not yet converted from EOF), and the
unconsumed remainder of the stream. -/
def scanLoop (ctxDone : Bool) : List Token → List (GNode σ) → List XName →
    GNode σ → XName → ScanState σ → ScanState σ × Option ScanErr × List Token
  | [], _, _, _, _, st => (st, none, [])
  | Token.errTok msg :: rest, _, _, _, _, st => (st, some (ScanErr.tokenErr msg), rest)
  | Token.startEl n as :: rest, stack, names, cur, curName, st =>
    match findChild cur.children n with
    | some child =>
      scanLoop ctxDone rest (cur :: stack) (curName :: names) child n (child.onStart as st)
    | none =>
      match h : skipSub rest 0 with
      | (rest', none) => scanLoop ctxDone rest' stack names cur curName st
      | (rest', some e) => (st, some e, rest')
  | Token.charData s :: rest, stack, names, cur, curName, st =>
    scanLoop ctxDone rest stack names cur curName (cur.onText s st)
  | Token.endEl n :: rest, stack, names, cur, curName, st =>
    if curName = n then
      let st' := cur.onEnd st
      match stack, names with
      | c :: stack', nm :: names' =>
        if ctxDone then (st', some ScanErr.cancelled, rest)
        else scanLoop ctxDone rest stack' names' c nm st'
      | _, _ => (st', some ScanErr.panicErr, rest)
    else
      if ctxDone then (st, some ScanErr.cancelled, rest)
      else scanLoop ctxDone rest stack names cur curName st
  termination_by ts => ts.length
  decreasing_by
    all_goals simp
    all_goals
      have := skipSub_length_le rest 0
      rw [h] at this
      simp at this
      omega

/-- Embedding of `decodeModelFile` (part_001 lines 80-148) for one model
part: run the scan from the top-level decoder with an empty current name and
no collected warnings, then convert an EOF terminal error into success
(lines 144-146). -/
def decodeModelFile (ctxDone : Bool) (ts : List Token) (top : GNode σ) (u : σ) :
    ScanState σ × Option ScanErr × List Token :=
  let r := scanLoop ctxDone ts [] [] top (XName.mk "" "") (ScanState.mk [] u)
  (r.1, if r.2.1 = some ScanErr.eof then none else r.2.1, r.2.2)

/-- Errors returned by a decode entry point: a fatal scan error, or the
strict-mode promotion of collected warnings. -/
inductive DecodeErr where
  | fatal (e : ScanErr)
  | strictWarnings
  deriving DecidableEq, Repr

/-- Entry point for decoding a standalone model document
(`Decoder.UnmarshalModel` / `processRootModel`).  Modelled from the spec
where it goes beyond `src/`: the strict-mode machinery lives in the `Scanner`
type outside `src/`, and per spec sections 4.3 and 7 strict mode promotes
the presence of any collected warning to a returned error only after the
full decode completes. -/
def unmarshalModel (strict ctxDone : Bool) (ts : List Token) (top : GNode σ)
    (u : σ) : ScanState σ × Option DecodeErr :=
  let r := decodeModelFile ctxDone ts top u
  match r.2.1 with
  | some e => (r.1, some (DecodeErr.fatal e))
  | none =>
    if strict && !r.1.warnings.isEmpty then (r.1, some DecodeErr.strictWarnings)
    else (r.1, none)

/-- Well-formed element content: a balanced sequence of tokens, as produced
by Go's `encoding/xml` for the inside of an element. -/
inductive BalancedToks : List Token → Prop where
  | nil : BalancedToks []
  | node {n : XName} {as : List SAttr} {s t : List Token} :
      BalancedToks s → BalancedToks t → BalancedToks (Token.startEl n as :: s ++ Token.endEl n :: t)
  | text {c : String} {t : List Token} : BalancedToks t → BalancedToks (Token.charData c :: t)

/-- Shape of a Go value passed as the `target` argument of the reflection
based extension lookups: the nil interface, a non-pointer value, or a
pointer (possibly nil) whose element type is either an interface type or a
concrete type that may or may not implement the marshaler interface.
Concrete types are identified by a type tag; an interface element type
carries the set of tags assignable to it. -/
inductive RElem where
  | iface (accepts : List String)
  | concrete (tag : String) (impl : Bool)
  deriving DecidableEq, Repr

/-- The `target` argument shapes of `ExtensionsAttr.Get`/`Extensions.Get`. -/
inductive RTarget where
  | nilT
  | nonPtr
  | ptr (isNil : Bool) (elem : RElem)
  deriving DecidableEq, Repr

/-- Whether the pointer's element type passes the shape check of the lookup
(`el.Kind() == reflect.Interface || el.Implements(marshalerAttrType)`). -/
def elemShapeOk : RElem → Bool
  | RElem.iface _ => true
  | RElem.concrete _ impl => impl

/-- Embedding of `reflect.TypeOf(v).AssignableTo(targetType)` for a stored
extension value with type tag `tag`. -/
def assignableTo (tag : String) : RElem → Bool
  | RElem.iface accepts => accepts.contains tag
  | RElem.concrete t _ => t == tag

/-- Embedding of `ExtensionsAttr.Get` (part_003 lines 69-93).  The stored
collection is a list of optional type tags (`none` models a nil entry); the
Go nil slice and the empty slice both embed to `[]`.  Panics are modelled as
`Except.error` carrying the panic message; on success the result is the
returned boolean together with the value assigned through the target
pointer. -/
def ExtensionsAttrGet (e : List (Option String)) (target : RTarget) :
    Except String (Bool × Option String) :=
  if e.isEmpty then Except.ok (false, none)
  else
    match target with
    | RTarget.nilT => Except.error "go3mf: target cannot be nil"
    | RTarget.nonPtr => Except.error "go3mf: target must be a non-nil pointer"
    | RTarget.ptr true _ => Except.error "go3mf: target must be a non-nil pointer"
    | RTarget.ptr false elem =>
      if elemShapeOk elem then
        match e.find? (fun v =>
            match v with
            | some tag => assignableTo tag elem
            | none => false) with
        | some v => Except.ok (true, v)
        | none => Except.ok (false, none)
      else Except.error "go3mf: *target must be interface or implement AttrMarshaler"

/-- Embedding of `Extensions.Get` (part_003 lines 115-139); identical control
flow to `ExtensionsAttr.Get` against the `Marshaler` interface. -/
def ExtensionsGet (e : List (Option String)) (target : RTarget) :
    Except String (Bool × Option String) :=
  if e.isEmpty then Except.ok (false, none)
  else
    match target with
    | RTarget.nilT => Except.error "go3mf: target cannot be nil"
    | RTarget.nonPtr => Except.error "go3mf: target must be a non-nil pointer"
    | RTarget.ptr true _ => Except.error "go3mf: target must be a non-nil pointer"
    | RTarget.ptr false elem =>
      if elemShapeOk elem then
        match e.find? (fun v =>
            match v with
            | some tag => assignableTo tag elem
            | none => false) with
        | some v => Except.ok (true, v)
        | none => Except.ok (false, none)
      else Except.error "go3mf: *target must be interface or implement Marshaler"

/-- The parse-attribute error, if any, that one attribute contributes in the
triangle decoder's loop. -/
def triErrOf (a : GoAttr) : Option GError :=
  if a.err then
    some (GError.parseAttr a.nameLocal
      (!(a.nameLocal == "pid" || a.nameLocal == "p1" ||
         a.nameLocal == "p2" || a.nameLocal == "p3")))
  else none

/-- The parse-attribute error, if any, that one attribute contributes in the
vertex decoder's loop. -/
def vertErrOf (a : GoAttr) : Option GError :=
  if a.err then some (GError.parseAttr a.nameLocal true) else none

theorem triStep_eq (s : TriSt) (a : GoAttr) :
    triStep s a =
      { t1 := if a.nameLocal = "v1" then ToUint24 (toUint32 a.val) else s.t1,
        t2 := if a.nameLocal = "v2" then ToUint24 (toUint32 a.val) else s.t2,
        t3 := if a.nameLocal = "v3" then ToUint24 (toUint32 a.val) else s.t3,
        pid := if a.nameLocal = "pid" then toUint32 a.val else s.pid,
        p1 := if a.nameLocal = "p1" then toUint32 a.val else s.p1,
        p2 := if a.nameLocal = "p2" then toUint32 a.val else s.p2,
        p3 := if a.nameLocal = "p3" then toUint32 a.val else s.p3,
        hasPID := s.hasPID || decide (a.nameLocal = "pid"),
        hasP1 := s.hasP1 || decide (a.nameLocal = "p1"),
        hasP2 := s.hasP2 || decide (a.nameLocal = "p2"),
        hasP3 := s.hasP3 || decide (a.nameLocal = "p3"),
        errs := s.errs ++ (triErrOf a).toList } := by
  simp only [triStep, triErrOf]
  split_ifs <;> simp_all [beq_iff_eq]

theorem vertexStep_eq (s : VertSt) (a : GoAttr) :
    vertexStep s a =
      { x := if a.nameLocal = "x" then a.val else s.x,
        y := if a.nameLocal = "y" then a.val else s.y,
        z := if a.nameLocal = "z" then a.val else s.z,
        errs := s.errs ++ (vertErrOf a).toList } := by
  simp only [vertexStep, vertErrOf]
  split_ifs <;> simp_all [beq_iff_eq]

theorem foldl_setIf_lastVal (n : String) (f : Nat → Nat) (attrs : List GoAttr) :
    ∀ x0 : Nat,
      attrs.foldl (fun x a => if a.nameLocal = n then f a.val else x) x0 =
        (match lastVal n attrs with
         | some v => f v
         | none => x0) := by
  induction attrs using List.reverseRecOn with
  | nil => intro x0; simp [lastVal]
  | append_singleton l a ih =>
    intro x0
    simp only [lastVal, List.foldl_append, List.foldl_cons, List.foldl_nil] at *
    by_cases h : a.nameLocal = n
    · simp [h]
    · simp [h, ih]

theorem foldl_or_any (p : GoAttr → Bool) (attrs : List GoAttr) :
    ∀ b : Bool, attrs.foldl (fun x a => x || p a) b = (b || attrs.any p) := by
  induction attrs with
  | nil => intro b; simp
  | cons a l ih => intro b; simp [List.foldl_cons, ih, Bool.or_assoc]

theorem lastVal_none_iff (n : String) (attrs : List GoAttr) :
    lastVal n attrs = none ↔ hasAttr n attrs = false := by
  induction attrs using List.reverseRecOn with
  | nil => simp [lastVal, hasAttr]
  | append_singleton l a ih =>
    simp only [lastVal, hasAttr, List.foldl_append, List.foldl_cons, List.foldl_nil,
      List.any_append, List.any_cons, List.any_nil] at *
    by_cases h : a.nameLocal = n
    · simp [h]
    · simp [h, ih, hasAttr]

theorem lastVal_lt (n : String) (attrs : List GoAttr) (B : Nat)
    (hb : ∀ a ∈ attrs, a.val < B) :
    ∀ v, lastVal n attrs = some v → v < B := by
  induction attrs using List.reverseRecOn with
  | nil => intro v hv; simp [lastVal] at hv
  | append_singleton l a ih =>
    intro v hv
    simp only [lastVal, List.foldl_append, List.foldl_cons, List.foldl_nil] at hv
    by_cases h : a.nameLocal = n
    · rw [if_pos h] at hv
      cases hv
      exact hb a (by simp)
    · rw [if_neg h] at hv
      exact ih (fun x hx => hb x (by simp [hx])) v hv

theorem triFold_p1 (attrs : List GoAttr) : ∀ s : TriSt,
    (attrs.foldl triStep s).p1 =
      attrs.foldl (fun x a => if a.nameLocal = "p1" then toUint32 a.val else x) s.p1 := by
  induction attrs with
  | nil => intro s; rfl
  | cons a l ih =>
    intro s
    simp only [List.foldl_cons]
    rw [ih, triStep_eq]

theorem triFold_p2 (attrs : List GoAttr) : ∀ s : TriSt,
    (attrs.foldl triStep s).p2 =
      attrs.foldl (fun x a => if a.nameLocal = "p2" then toUint32 a.val else x) s.p2 := by
  induction attrs with
  | nil => intro s; rfl
  | cons a l ih =>
    intro s
    simp only [List.foldl_cons]
    rw [ih, triStep_eq]

theorem triFold_p3 (attrs : List GoAttr) : ∀ s : TriSt,
    (attrs.foldl triStep s).p3 =
      attrs.foldl (fun x a => if a.nameLocal = "p3" then toUint32 a.val else x) s.p3 := by
  induction attrs with
  | nil => intro s; rfl
  | cons a l ih =>
    intro s
    simp only [List.foldl_cons]
    rw [ih, triStep_eq]

theorem triFold_pid (attrs : List GoAttr) : ∀ s : TriSt,
    (attrs.foldl triStep s).pid =
      attrs.foldl (fun x a => if a.nameLocal = "pid" then toUint32 a.val else x) s.pid := by
  induction attrs with
  | nil => intro s; rfl
  | cons a l ih =>
    intro s
    simp only [List.foldl_cons]
    rw [ih, triStep_eq]

theorem triFold_t1 (attrs : List GoAttr) : ∀ s : TriSt,
    (attrs.foldl triStep s).t1 =
      attrs.foldl (fun x a => if a.nameLocal = "v1" then ToUint24 (toUint32 a.val) else x) s.t1 := by
  induction attrs with
  | nil => intro s; rfl
  | cons a l ih =>
    intro s
    simp only [List.foldl_cons]
    rw [ih, triStep_eq]

theorem triFold_t2 (attrs : List GoAttr) : ∀ s : TriSt,
    (attrs.foldl triStep s).t2 =
      attrs.foldl (fun x a => if a.nameLocal = "v2" then ToUint24 (toUint32 a.val) else x) s.t2 := by
  induction attrs with
  | nil => intro s; rfl
  | cons a l ih =>
    intro s
    simp only [List.foldl_cons]
    rw [ih, triStep_eq]

theorem triFold_t3 (attrs : List GoAttr) : ∀ s : TriSt,
    (attrs.foldl triStep s).t3 =
      attrs.foldl (fun x a => if a.nameLocal = "v3" then ToUint24 (toUint32 a.val) else x) s.t3 := by
  induction attrs with
  | nil => intro s; rfl
  | cons a l ih =>
    intro s
    simp only [List.foldl_cons]
    rw [ih, triStep_eq]

theorem triFold_hasP1 (attrs : List GoAttr) : ∀ s : TriSt,
    (attrs.foldl triStep s).hasP1 =
      attrs.foldl (fun b a => b || decide (a.nameLocal = "p1")) s.hasP1 := by
  induction attrs with
  | nil => intro s; rfl
  | cons a l ih =>
    intro s
    simp only [List.foldl_cons]
    rw [ih, triStep_eq]

theorem triFold_hasP2 (attrs : List GoAttr) : ∀ s : TriSt,
    (attrs.foldl triStep s).hasP2 =
      attrs.foldl (fun b a => b || decide (a.nameLocal = "p2")) s.hasP2 := by
  induction attrs with
  | nil => intro s; rfl
  | cons a l ih =>
    intro s
    simp only [List.foldl_cons]
    rw [ih, triStep_eq]

theorem triFold_hasP3 (attrs : List GoAttr) : ∀ s : TriSt,
    (attrs.foldl triStep s).hasP3 =
      attrs.foldl (fun b a => b || decide (a.nameLocal = "p3")) s.hasP3 := by
  induction attrs with
  | nil => intro s; rfl
  | cons a l ih =>
    intro s
    simp only [List.foldl_cons]
    rw [ih, triStep_eq]

theorem triFold_hasPID (attrs : List GoAttr) : ∀ s : TriSt,
    (attrs.foldl triStep s).hasPID =
      attrs.foldl (fun b a => b || decide (a.nameLocal = "pid")) s.hasPID := by
  induction attrs with
  | nil => intro s; rfl
  | cons a l ih =>
    intro s
    simp only [List.foldl_cons]
    rw [ih, triStep_eq]

theorem triFold_errs (attrs : List GoAttr) : ∀ s : TriSt,
    (attrs.foldl triStep s).errs = s.errs ++ attrs.filterMap triErrOf := by
  induction attrs with
  | nil => intro s; simp
  | cons a l ih =>
    intro s
    simp only [List.foldl_cons]
    rw [ih, triStep_eq]
    cases h : triErrOf a <;>
      simp [List.filterMap_cons, h, List.append_assoc]

theorem vertFold_x (attrs : List GoAttr) : ∀ s : VertSt,
    (attrs.foldl vertexStep s).x =
      attrs.foldl (fun x a => if a.nameLocal = "x" then a.val else x) s.x := by
  induction attrs with
  | nil => intro s; rfl
  | cons a l ih =>
    intro s
    simp only [List.foldl_cons]
    rw [ih, vertexStep_eq]

theorem vertFold_y (attrs : List GoAttr) : ∀ s : VertSt,
    (attrs.foldl vertexStep s).y =
      attrs.foldl (fun x a => if a.nameLocal = "y" then a.val else x) s.y := by
  induction attrs with
  | nil => intro s; rfl
  | cons a l ih =>
    intro s
    simp only [List.foldl_cons]
    rw [ih, vertexStep_eq]

theorem vertFold_z (attrs : List GoAttr) : ∀ s : VertSt,
    (attrs.foldl vertexStep s).z =
      attrs.foldl (fun x a => if a.nameLocal = "z" then a.val else x) s.z := by
  induction attrs with
  | nil => intro s; rfl
  | cons a l ih =>
    intro s
    simp only [List.foldl_cons]
    rw [ih, vertexStep_eq]

theorem vertFold_errs (attrs : List GoAttr) : ∀ s : VertSt,
    (attrs.foldl vertexStep s).errs = s.errs ++ attrs.filterMap vertErrOf := by
  induction attrs with
  | nil => intro s; simp
  | cons a l ih =>
    intro s
    simp only [List.foldl_cons]
    rw [ih, vertexStep_eq]
    cases h : vertErrOf a <;>
      simp [List.filterMap_cons, h, List.append_assoc]


/-- Claim C2: for every decoded triangle element, given the owning object's
defaults (property-group id `defPID`, property index `defPIndex`): when the
`p1` attribute is absent the decoded `p1` equals the object's default property
index; when `p2` (respectively `p3`) is absent it equals the resolved `p1`,
not the object default; when `pid` is absent it equals the object's default
property-group id; attributes that are present keep their parsed values (the
bound hypothesis is the contract of `strconv.ParseUint(s, 10, 24)`, whose
returned value is always below `2^24`). -/
theorem claim2_triangle_property_defaulting
    (defPIndex defPID : Nat) (attrs : List GoAttr) (tris : List Triangle)
    (hbound : ∀ a ∈ attrs, a.val < 16777216) :
    ∃ t : Triangle,
      (triangleDecoderStart defPIndex defPID attrs tris).1 = tris ++ [t]
      ∧ (hasAttr "p1" attrs = false → t.p1 = defPIndex)
      ∧ (hasAttr "p2" attrs = false → t.p2 = t.p1)
      ∧ (hasAttr "p3" attrs = false → t.p3 = t.p1)
      ∧ (hasAttr "pid" attrs = false → t.pid = defPID)
      ∧ (∀ v, lastVal "p1" attrs = some v → t.p1 = v)
      ∧ (∀ v, lastVal "p2" attrs = some v → t.p2 = v)
      ∧ (∀ v, lastVal "p3" attrs = some v → t.p3 = v)
      ∧ (∀ v, lastVal "pid" attrs = some v → t.pid = v) := by
  refine ⟨_, rfl, ?_, ?_, ?_, ?_, ?_, ?_, ?_, ?_⟩
  · intro h
    simp only [hasAttr] at h
    simp [applyDefault, triFold_hasP1, foldl_or_any, h]
  · intro h
    simp only [hasAttr] at h
    simp [applyDefault, triFold_hasP2, foldl_or_any, h]
  · intro h
    simp only [hasAttr] at h
    simp [applyDefault, triFold_hasP3, foldl_or_any, h]
  · intro h
    simp only [hasAttr] at h
    simp [applyDefault, triFold_hasPID, foldl_or_any, h]
  · intro v hv
    have hA : hasAttr "p1" attrs = true := by
      cases hh : hasAttr "p1" attrs with
      | false =>
        have hn := (lastVal_none_iff "p1" attrs).mpr hh
        rw [hn] at hv
        simp at hv
      | true => rfl
    have h1 : (attrs.foldl triStep
        ⟨0, 0, 0, 0, 0, 0, 0, false, false, false, false, []⟩).hasP1 = true := by
      rw [triFold_hasP1, foldl_or_any]
      simp only [hasAttr] at hA
      simp [hA]
    have h2 : (attrs.foldl triStep
        ⟨0, 0, 0, 0, 0, 0, 0, false, false, false, false, []⟩).p1 = toUint32 v := by
      rw [triFold_p1, foldl_setIf_lastVal, hv]
    have hlt := lastVal_lt "p1" attrs 16777216 hbound v hv
    simp [applyDefault, h1, h2, toUint32]
    omega
  · intro v hv
    have hA : hasAttr "p2" attrs = true := by
      cases hh : hasAttr "p2" attrs with
      | false =>
        have hn := (lastVal_none_iff "p2" attrs).mpr hh
        rw [hn] at hv
        simp at hv
      | true => rfl
    have h1 : (attrs.foldl triStep
        ⟨0, 0, 0, 0, 0, 0, 0, false, false, false, false, []⟩).hasP2 = true := by
      rw [triFold_hasP2, foldl_or_any]
      simp only [hasAttr] at hA
      simp [hA]
    have h2 : (attrs.foldl triStep
        ⟨0, 0, 0, 0, 0, 0, 0, false, false, false, false, []⟩).p2 = toUint32 v := by
      rw [triFold_p2, foldl_setIf_lastVal, hv]
    have hlt := lastVal_lt "p2" attrs 16777216 hbound v hv
    simp [applyDefault, h1, h2, toUint32]
    omega
  · intro v hv
    have hA : hasAttr "p3" attrs = true := by
      cases hh : hasAttr "p3" attrs with
      | false =>
        have hn := (lastVal_none_iff "p3" attrs).mpr hh
        rw [hn] at hv
        simp at hv
      | true => rfl
    have h1 : (attrs.foldl triStep
        ⟨0, 0, 0, 0, 0, 0, 0, false, false, false, false, []⟩).hasP3 = true := by
      rw [triFold_hasP3, foldl_or_any]
      simp only [hasAttr] at hA
      simp [hA]
    have h2 : (attrs.foldl triStep
        ⟨0, 0, 0, 0, 0, 0, 0, false, false, false, false, []⟩).p3 = toUint32 v := by
      rw [triFold_p3, foldl_setIf_lastVal, hv]
    have hlt := lastVal_lt "p3" attrs 16777216 hbound v hv
    simp [applyDefault, h1, h2, toUint32]
    omega
  · intro v hv
    have hA : hasAttr "pid" attrs = true := by
      cases hh : hasAttr "pid" attrs with
      | false =>
        have hn := (lastVal_none_iff "pid" attrs).mpr hh
        rw [hn] at hv
        simp at hv
      | true => rfl
    have h1 : (attrs.foldl triStep
        ⟨0, 0, 0, 0, 0, 0, 0, false, false, false, false, []⟩).hasPID = true := by
      rw [triFold_hasPID, foldl_or_any]
      simp only [hasAttr] at hA
      simp [hA]
    have h2 : (attrs.foldl triStep
        ⟨0, 0, 0, 0, 0, 0, 0, false, false, false, false, []⟩).pid = toUint32 v := by
      rw [triFold_pid, foldl_setIf_lastVal, hv]
    have hlt := lastVal_lt "pid" attrs 16777216 hbound v hv
    simp [applyDefault, h1, h2, toUint32]
    omega

/-- Witness for claim C2, instantiating the spec's own example: object
defaults `(pid = 5, pindex = 2)` and a triangle specifying `v1,v2,v3` and
`p1 = 9` while omitting `p2`, `p3` and `pid`. -/
theorem claim2_triangle_property_defaulting_witness :
    (∀ a ∈ ([⟨"v1", 0, false⟩, ⟨"v2", 1, false⟩, ⟨"v3", 2, false⟩,
             ⟨"p1", 9, false⟩] : List GoAttr), a.val < 16777216)
    ∧ ∃ t : Triangle,
        (triangleDecoderStart 2 5
          [⟨"v1", 0, false⟩, ⟨"v2", 1, false⟩, ⟨"v3", 2, false⟩, ⟨"p1", 9, false⟩]
          []).1 = [] ++ [t]
        ∧ (hasAttr "p1" [⟨"v1", 0, false⟩, ⟨"v2", 1, false⟩, ⟨"v3", 2, false⟩,
              ⟨"p1", 9, false⟩] = false → t.p1 = 2)
        ∧ (hasAttr "p2" [⟨"v1", 0, false⟩, ⟨"v2", 1, false⟩, ⟨"v3", 2, false⟩,
              ⟨"p1", 9, false⟩] = false → t.p2 = t.p1)
        ∧ (hasAttr "p3" [⟨"v1", 0, false⟩, ⟨"v2", 1, false⟩, ⟨"v3", 2, false⟩,
              ⟨"p1", 9, false⟩] = false → t.p3 = t.p1)
        ∧ (hasAttr "pid" [⟨"v1", 0, false⟩, ⟨"v2", 1, false⟩, ⟨"v3", 2, false⟩,
              ⟨"p1", 9, false⟩] = false → t.pid = 5)
        ∧ (∀ v, lastVal "p1" [⟨"v1", 0, false⟩, ⟨"v2", 1, false⟩, ⟨"v3", 2, false⟩,
              ⟨"p1", 9, false⟩] = some v → t.p1 = v)
        ∧ (∀ v, lastVal "p2" [⟨"v1", 0, false⟩, ⟨"v2", 1, false⟩, ⟨"v3", 2, false⟩,
              ⟨"p1", 9, false⟩] = some v → t.p2 = v)
        ∧ (∀ v, lastVal "p3" [⟨"v1", 0, false⟩, ⟨"v2", 1, false⟩, ⟨"v3", 2, false⟩,
              ⟨"p1", 9, false⟩] = some v → t.p3 = v)
        ∧ (∀ v, lastVal "pid" [⟨"v1", 0, false⟩, ⟨"v2", 1, false⟩, ⟨"v3", 2, false⟩,
              ⟨"p1", 9, false⟩] = some v → t.pid = v) :=
  ⟨by decide,
   claim2_triangle_property_defaulting 2 5
     [⟨"v1", 0, false⟩, ⟨"v2", 1, false⟩, ⟨"v3", 2, false⟩, ⟨"p1", 9, false⟩]
     [] (by decide)⟩

/-- Claim C10: for every triangle element in which the `v1`, `v2` or `v3`
attribute is entirely absent, the triangle decoder still appends exactly one
triangle to the mesh with each missing vertex index equal to zero, and
reports no missing-mandatory-attribute error for the absent attributes
(indeed it never emits a missing-attribute error at all). -/
theorem claim10_triangle_missing_vertex_attrs
    (defPIndex defPID : Nat) (attrs : List GoAttr) (tris : List Triangle) :
    ∃ t : Triangle,
      (triangleDecoderStart defPIndex defPID attrs tris).1 = tris ++ [t]
      ∧ (hasAttr "v1" attrs = false → t.v1 = 0)
      ∧ (hasAttr "v2" attrs = false → t.v2 = 0)
      ∧ (hasAttr "v3" attrs = false → t.v3 = 0)
      ∧ (∀ idx errs,
          (triangleDecoderStart defPIndex defPID attrs tris).2 = some (idx, errs) →
          ∀ e ∈ errs, ∀ nm, e ≠ GError.missingAttr nm) := by
  refine ⟨_, rfl, ?_, ?_, ?_, ?_⟩
  · intro h
    have hn := (lastVal_none_iff "v1" attrs).mpr h
    show (attrs.foldl triStep ⟨0, 0, 0, 0, 0, 0, 0, false, false, false, false, []⟩).t1 = 0
    rw [triFold_t1, foldl_setIf_lastVal "v1" (fun v => ToUint24 (toUint32 v)) attrs, hn]
  · intro h
    have hn := (lastVal_none_iff "v2" attrs).mpr h
    show (attrs.foldl triStep ⟨0, 0, 0, 0, 0, 0, 0, false, false, false, false, []⟩).t2 = 0
    rw [triFold_t2, foldl_setIf_lastVal "v2" (fun v => ToUint24 (toUint32 v)) attrs, hn]
  · intro h
    have hn := (lastVal_none_iff "v3" attrs).mpr h
    show (attrs.foldl triStep ⟨0, 0, 0, 0, 0, 0, 0, false, false, false, false, []⟩).t3 = 0
    rw [triFold_t3, foldl_setIf_lastVal "v3" (fun v => ToUint24 (toUint32 v)) attrs, hn]
  · intro idx errs heq e he nm
    simp only [triangleDecoderStart] at heq
    split at heq
    · exact absurd heq (by simp)
    · rw [Option.some.injEq, Prod.mk.injEq] at heq
      rw [← heq.2] at he
      rw [triFold_errs] at he
      simp only [List.nil_append, List.mem_filterMap] at he
      obtain ⟨a, _, ha⟩ := he
      simp only [triErrOf] at ha
      split at ha
      · rw [Option.some.injEq] at ha
        rw [← ha]
        simp
      · exact absurd ha (by simp)

/-- Witness for claim C10: a triangle element with only a (failing) `pid`
attribute and none of `v1`, `v2`, `v3`. -/
theorem claim10_triangle_missing_vertex_attrs_witness :
    ∃ t : Triangle,
      (triangleDecoderStart 2 5 [⟨"pid", 0, true⟩] []).1 = [] ++ [t]
      ∧ (hasAttr "v1" [⟨"pid", 0, true⟩] = false → t.v1 = 0)
      ∧ (hasAttr "v2" [⟨"pid", 0, true⟩] = false → t.v2 = 0)
      ∧ (hasAttr "v3" [⟨"pid", 0, true⟩] = false → t.v3 = 0)
      ∧ (∀ idx errs,
          (triangleDecoderStart 2 5 [⟨"pid", 0, true⟩] []).2 = some (idx, errs) →
          ∀ e ∈ errs, ∀ nm, e ≠ GError.missingAttr nm) :=
  claim10_triangle_missing_vertex_attrs 2 5 [⟨"pid", 0, true⟩] []

/-- Claim C6 counterexample: for a vertex element `<vertex x="1e999"/>`,
Go's `strconv.ParseFloat("1e999", 32)` returns plus infinity together with a
range error (`ErrRange`), so the decoder consumes the boundary attribute
`⟨"x", 2139095040, true⟩` (2139095040 = 0x7f800000 is the float32 bit
pattern of plus infinity).  The decoder stores the parser's returned value
even on error, so the vertex is appended with its failed `x` coordinate equal
to the plus-infinity bit pattern, not to zero, refuting the claim that each
failed coordinate is set to zero. -/
theorem claim6_counterexample :
    (vertexDecoderStart [⟨"x", 2139095040, true⟩] []).1 =
      [⟨2139095040, 0, 0⟩]
    ∧ (vertexDecoderStart [⟨"x", 2139095040, true⟩] []).2 =
      some (0, [GError.parseAttr "x" true])
    ∧ 2139095040 ≠ 0 := by
  refine ⟨rfl, rfl, by decide⟩

/-- Claim C6 (amended): for every vertex element, even when parsing the `x`,
`y` or `z` attribute as a 32-bit float fails, exactly one vertex is appended
to the mesh; each coordinate holds the value the float parser returned for
its last occurrence (`0` when the attribute is absent or when the parser
returned zero, as on syntax errors; the infinity bit pattern on range
overflow); and a parse-attribute error wrapped with the vertex's index at
append time is reported instead of aborting the decode, exactly when some
attribute failed to parse. -/
theorem claim6_vertex_error_tolerant (attrs : List GoAttr) (vertices : List Point3D) :
    ∃ p : Point3D,
      (vertexDecoderStart attrs vertices).1 = vertices ++ [p]
      ∧ p.x = (match lastVal "x" attrs with | some v => v | none => 0)
      ∧ p.y = (match lastVal "y" attrs with | some v => v | none => 0)
      ∧ p.z = (match lastVal "z" attrs with | some v => v | none => 0)
      ∧ (vertexDecoderStart attrs vertices).2 =
          (if attrs.any (fun a => a.err) then
            some (vertices.length, attrs.filterMap vertErrOf)
          else none) := by
  refine ⟨_, rfl, ?_, ?_, ?_, ?_⟩
  · show (attrs.foldl vertexStep ⟨0, 0, 0, []⟩).x = _
    rw [vertFold_x, foldl_setIf_lastVal "x" (fun v => v) attrs]
  · show (attrs.foldl vertexStep ⟨0, 0, 0, []⟩).y = _
    rw [vertFold_y, foldl_setIf_lastVal "y" (fun v => v) attrs]
  · show (attrs.foldl vertexStep ⟨0, 0, 0, []⟩).z = _
    rw [vertFold_z, foldl_setIf_lastVal "z" (fun v => v) attrs]
  · show (if _ = ([] : List GError) then _ else _) = _
    rw [vertFold_errs]
    simp only [List.nil_append]
    by_cases h : attrs.any (fun a => a.err) = true
    · rw [if_pos h]
      rw [if_neg ?_]
      obtain ⟨a, ha, hae⟩ := List.any_eq_true.mp h
      intro hnil
      have : vertErrOf a = none := List.filterMap_eq_nil_iff.mp hnil a ha
      simp [vertErrOf, hae] at this
    · rw [if_neg h, if_pos ?_]
      have hall : ∀ a ∈ attrs, a.err = false := by
        intro a ha
        by_contra hc
        exact h (List.any_eq_true.mpr ⟨a, ha, by simpa using hc⟩)
      refine List.filterMap_eq_nil_iff.mpr ?_
      intro a ha
      simp [vertErrOf, hall a ha]

theorem addAttachment_unchanged (atts : List Attachment) (f : PkgFile)
    (h : ∃ a ∈ atts, eqFold a.path f.name = true) :
    addAttachment atts f = atts := by
  obtain ⟨a, ha, hf⟩ := h
  simp only [addAttachment]
  rw [if_pos (List.any_eq_true.mpr ⟨a, ha, hf⟩)]

theorem addAttachment_pairwise (atts : List Attachment) (f : PkgFile)
    (hp : atts.Pairwise (fun a b => eqFold a.path b.path = false)) :
    (addAttachment atts f).Pairwise (fun a b => eqFold a.path b.path = false) := by
  simp only [addAttachment]
  by_cases hany : atts.any (fun att => eqFold att.path f.name) = true
  · rw [if_pos hany]; exact hp
  · rw [if_neg hany]
    by_cases hc : f.copyOk = true
    · rw [if_pos hc]
      rw [List.pairwise_append]
      refine ⟨hp, List.pairwise_singleton _ _, ?_⟩
      intro a ha b hb
      have hb' : b = Attachment.mk f.name f.contentType := by simpa using hb
      subst hb'
      have := fun hx => hany (List.any_eq_true.mpr ⟨a, ha, hx⟩)
      simpa using this
    · rw [if_neg hc]; exact hp

theorem foldl_addAttachment_pairwise (files : List PkgFile) :
    ∀ atts : List Attachment,
      atts.Pairwise (fun a b => eqFold a.path b.path = false) →
      (files.foldl addAttachment atts).Pairwise (fun a b => eqFold a.path b.path = false) := by
  induction files with
  | nil => intro atts hp; exact hp
  | cons f rest ih =>
    intro atts hp
    exact ih (addAttachment atts f) (addAttachment_pairwise atts f hp)

/-- Claim C8: the model's attachment list never contains two entries whose
paths are equal under case-insensitive comparison — every list built from
`addAttachment` starting at the empty list is pairwise distinct up to case
folding, a single `addAttachment` preserves that invariant, and adding an
attachment whose path case-insensitively matches an existing entry returns
the list unchanged. -/
theorem claim8_attachment_dedup :
    (∀ (atts : List Attachment) (f : PkgFile),
        (∃ a ∈ atts, eqFold a.path f.name = true) → addAttachment atts f = atts)
    ∧ (∀ (atts : List Attachment) (f : PkgFile),
        atts.Pairwise (fun a b => eqFold a.path b.path = false) →
        (addAttachment atts f).Pairwise (fun a b => eqFold a.path b.path = false))
    ∧ (∀ files : List PkgFile,
        (files.foldl addAttachment []).Pairwise (fun a b => eqFold a.path b.path = false)) :=
  ⟨addAttachment_unchanged, addAttachment_pairwise,
   fun files => foldl_addAttachment_pairwise files [] (List.Pairwise.nil)⟩

/-- Witness for claim C8: adding `/Thumb.PNG` to a list already containing
`/thumb.png` leaves the list unchanged. -/
theorem claim8_attachment_dedup_witness :
    (∃ a ∈ [Attachment.mk "/thumb.png" "image/png"],
        eqFold a.path (PkgFile.mk "/Thumb.PNG" "image/png" true []).name = true)
    ∧ addAttachment [Attachment.mk "/thumb.png" "image/png"]
        (PkgFile.mk "/Thumb.PNG" "image/png" true []) =
        [Attachment.mk "/thumb.png" "image/png"]
    ∧ [Attachment.mk "/thumb.png" "image/png"].Pairwise
        (fun a b => eqFold a.path b.path = false) :=
  ⟨⟨Attachment.mk "/thumb.png" "image/png", by decide⟩,
   claim8_attachment_dedup.1 _ _
     ⟨Attachment.mk "/thumb.png" "image/png", by decide⟩,
   claim8_attachment_dedup.2.1 [] (PkgFile.mk "/thumb.png" "image/png" true [])
     List.Pairwise.nil⟩

/-- Claim C9: `ExtensionsAttr.Get` and `Extensions.Get` on a nil or empty
collection (both embed to the empty list) return `false` without panicking,
for every target shape including the nil target; a panic (`Except.error`)
can only occur when the collection is non-empty. -/
theorem claim9_extensions_get_nil_safe :
    (∀ t : RTarget, ExtensionsAttrGet [] t = Except.ok (false, none))
    ∧ (∀ t : RTarget, ExtensionsGet [] t = Except.ok (false, none))
    ∧ (∀ (e : List (Option String)) (t : RTarget) (m : String),
        ExtensionsAttrGet e t = Except.error m → e ≠ [])
    ∧ (∀ (e : List (Option String)) (t : RTarget) (m : String),
        ExtensionsGet e t = Except.error m → e ≠ []) := by
  refine ⟨fun t => rfl, fun t => rfl, ?_, ?_⟩
  · intro e t m h hnil
    subst hnil
    simp [ExtensionsAttrGet] at h
  · intro e t m h hnil
    subst hnil
    simp [ExtensionsGet] at h

/-- Witness for claim C9: the nil-collection calls return `false` even for a
nil target, and the nil-target panic arises only on a non-empty collection. -/
theorem claim9_extensions_get_nil_safe_witness :
    ExtensionsAttrGet [] RTarget.nilT = Except.ok (false, none)
    ∧ ExtensionsGet [] RTarget.nilT = Except.ok (false, none)
    ∧ ([some "production"] : List (Option String)) ≠ [] :=
  ⟨claim9_extensions_get_nil_safe.1 RTarget.nilT,
   claim9_extensions_get_nil_safe.2.1 RTarget.nilT,
   claim9_extensions_get_nil_safe.2.2.1 [some "production"] RTarget.nilT
     "go3mf: target cannot be nil" rfl⟩

theorem processOPCLoop_no_model (pkg : Pkg) :
    ∀ (rs : List Relationship) (m : CModel) (nr : List PkgFile),
      (∀ r ∈ rs, r.relType ≠ RelType3DModel) →
      ∃ e, (processOPCLoop pkg m none nr rs).2.2 = Except.error e := by
  intro rs
  induction rs with
  | nil => intro m nr _; exact ⟨_, rfl⟩
  | cons r rest ih =>
    intro m nr h
    have hr : ¬r.relType = RelType3DModel := h r (by simp)
    simp only [processOPCLoop, if_neg hr]
    split
    · exact ih _ _ (fun x hx => h x (by simp [hx]))
    · exact ih _ _ (fun x hx => h x (by simp [hx]))

theorem processOPCLoop_missing_model (pkg : Pkg) :
    ∀ (rs : List Relationship) (r : Relationship), r ∈ rs →
      r.relType = RelType3DModel → findFile pkg.files r.path = none →
      ∀ (m : CModel) (rootFile : Option PkgFile) (nr : List PkgFile),
        ∃ e, (processOPCLoop pkg m rootFile nr rs).2.2 = Except.error e := by
  intro rs
  induction rs with
  | nil => intro r hr; simp at hr
  | cons a rest ih =>
    intro r hr hmod hfind m rootFile nr
    rcases List.mem_cons.mp hr with heq | hmem
    · subst heq
      simp only [processOPCLoop, if_pos hmod, hfind]
      exact ⟨_, rfl⟩
    · by_cases ha : a.relType = RelType3DModel
      · simp only [processOPCLoop, if_pos ha]
        split
        · exact ⟨_, rfl⟩
        · exact ih r hmem hmod hfind _ _ _
      · simp only [processOPCLoop, if_neg ha]
        split
        · exact ih r hmem hmod hfind _ _ _
        · exact ih r hmem hmod hfind _ _ _

/-- Claim C4 (amended): if the package has no root-level relationship of the
recognized 3D-model type, or a model-type relationship points to a part that
does not exist in the container, the decode returns a fatal error; the
amendment drops the assertion that the caller-supplied model is left
unchanged, since attachments and root relationships recorded from
relationships processed before the failure remain in the model (no root
model content is decoded, however). -/
theorem claim4_missing_root_is_fatal (pkg : Pkg) (m : CModel)
    (hopen : pkg.openErr = none) :
    ((∀ r ∈ pkg.rels, r.relType ≠ RelType3DModel) →
      ∃ e, (processOPC pkg m).2.2 = Except.error e)
    ∧ (∀ r ∈ pkg.rels, r.relType = RelType3DModel →
        findFile pkg.files r.path = none →
        ∃ e, (processOPC pkg m).2.2 = Except.error e) := by
  constructor
  · intro h
    simp only [processOPC, hopen]
    exact processOPCLoop_no_model pkg pkg.rels m [] h
  · intro r hr hmod hfind
    simp only [processOPC, hopen]
    exact processOPCLoop_missing_model pkg pkg.rels r hr hmod hfind m none []

/-- Witness for claim C4 (amended): a package with an open container and no
relationships at all yields the missing-root fatal error, and a package whose
only relationship is a model-type relationship to a missing part yields the
unexisting-file fatal error. -/
theorem claim4_missing_root_is_fatal_witness :
    (∃ e, (processOPC (Pkg.mk none [] []) (CModel.mk "" [] [] [] [] [] [])).2.2 =
      Except.error e)
    ∧ (∃ e, (processOPC
        (Pkg.mk none [Relationship.mk RelType3DModel "/3D/missing.model"] [])
        (CModel.mk "" [] [] [] [] [] [])).2.2 = Except.error e) :=
  ⟨(claim4_missing_root_is_fatal (Pkg.mk none [] [])
      (CModel.mk "" [] [] [] [] [] []) rfl).1 (by simp),
   (claim4_missing_root_is_fatal
      (Pkg.mk none [Relationship.mk RelType3DModel "/3D/missing.model"] [])
      (CModel.mk "" [] [] [] [] [] []) rfl).2
      (Relationship.mk RelType3DModel "/3D/missing.model") (by simp) rfl rfl⟩

/-- Claim C4 counterexample: a package whose first relationship is an
ordinary attachment relationship (to an existing part) and whose second,
model-type relationship points to a part missing from the container.
`processOPC` returns the fatal error, but the caller-supplied model has
already been mutated: the attachment was copied in and the root relationship
recorded before the error return, refuting the part of the claim that says
the caller-supplied model is left unchanged on this error path. -/
theorem claim4_counterexample :
    (processOPC
      (Pkg.mk none
        [Relationship.mk "http://example.com/attachment" "/a.png",
         Relationship.mk RelType3DModel "/3D/missing.model"]
        [PkgFile.mk "/a.png" "image/png" true []])
      (CModel.mk "" [] [] [] [] [] [])).2.2 =
        Except.error "package root model points to an unexisting file"
    ∧ (processOPC
      (Pkg.mk none
        [Relationship.mk "http://example.com/attachment" "/a.png",
         Relationship.mk RelType3DModel "/3D/missing.model"]
        [PkgFile.mk "/a.png" "image/png" true []])
      (CModel.mk "" [] [] [] [] [] [])).1 ≠ CModel.mk "" [] [] [] [] [] [] := by
  refine ⟨rfl, by decide⟩

theorem insertionSort_perm_range (n : Nat) (l : List Nat) (h : l.Perm (List.range n)) :
    List.insertionSort (· ≤ ·) l = List.range n :=
  List.eq_of_perm_of_sorted ((List.perm_insertionSort _ l).trans h)
    (List.sorted_insertionSort _ l) (List.sorted_le_range n)

theorem foldl_merge_range' (results : List ScannerR) :
    ∀ (k s : Nat), s + k ≤ results.length →
      ∀ (m : CModel) (w : List String),
        ((List.range' s k).foldl
          (fun (mw : CModel × List String) i =>
            addChildModelFile mw.2 (results.getD i default) mw.1) (m, w)).2 =
        w ++ (((results.drop s).take k).map (fun r => r.warnings)).flatten := by
  intro k
  induction k with
  | zero => intro s h m w; simp
  | succ k ih =>
    intro s h m w
    have hs : s < results.length := by omega
    rw [List.range'_succ s k 1]
    simp only [List.foldl_cons]
    rw [ih (s + 1) (by omega)]
    have hgd : results.getD s default = results[s] := by
      simp [List.getD_eq_getElem?_getD, List.getElem?_eq_getElem hs]
    rw [List.drop_eq_getElem_cons hs, List.take_succ_cons, List.map_cons,
      List.flatten_cons, hgd]
    simp [addChildModelFile, List.append_assoc]

/-- Claim C5: for every set of per-part decoding results and every order in
which the concurrent tasks complete (any permutation of the discovery
indices, modelling the arbitrary `sync.Map` range order), the merge performed
by `processNonRootModels` is identical to the merge in ascending
discovery-index order, and on the success path the model-level warning list
is the input list followed by each part's warnings in ascending discovery
order — so decoding the same package twice yields the same warning order. -/
theorem claim5_deterministic_merge_order (results : List ScannerR)
    (rangeOrder : List Nat) (m : CModel) (w : List String)
    (hperm : rangeOrder.Perm (List.range results.length)) :
    processNonRootModels results rangeOrder m w =
      processNonRootModels results (List.range results.length) m w
    ∧ ((∀ r ∈ results, r.err = none) →
      (processNonRootModels results rangeOrder m w).2.1 =
        w ++ (results.map (fun r => r.warnings)).flatten) := by
  have hsort : List.insertionSort (· ≤ ·) rangeOrder = List.range results.length :=
    insertionSort_perm_range results.length rangeOrder hperm
  have hsort2 : List.insertionSort (· ≤ ·) (List.range results.length) =
      List.range results.length :=
    insertionSort_perm_range results.length _ (List.Perm.refl _)
  constructor
  · simp only [processNonRootModels, hsort, hsort2]
  · intro herr
    have hfind : results.find? (fun r => r.err.isSome) = none := by
      refine List.find?_eq_none.mpr ?_
      intro r hr
      simp [herr r hr]
    simp only [processNonRootModels, hfind, hsort]
    have hmain := foldl_merge_range' results results.length 0 (by omega) m w
    rw [List.range_eq_range']
    simpa using hmain

/-- Witness for claim C5: two auxiliary parts whose tasks complete in
reverse order still merge ascending, with warnings `a` then `b`. -/
theorem claim5_deterministic_merge_order_witness :
    ([1, 0] : List Nat).Perm (List.range 2)
    ∧ (processNonRootModels
        [ScannerR.mk "/3D/a.model" [] [] ["a"] none,
         ScannerR.mk "/3D/b.model" [] [] ["b"] none] [1, 0]
        (CModel.mk "" [] [] [] [] [] []) [] =
      processNonRootModels
        [ScannerR.mk "/3D/a.model" [] [] ["a"] none,
         ScannerR.mk "/3D/b.model" [] [] ["b"] none] (List.range 2)
        (CModel.mk "" [] [] [] [] [] []) [])
    ∧ ((∀ r ∈ [ScannerR.mk "/3D/a.model" [] [] ["a"] none,
          ScannerR.mk "/3D/b.model" [] [] ["b"] none], r.err = none) →
      (processNonRootModels
        [ScannerR.mk "/3D/a.model" [] [] ["a"] none,
         ScannerR.mk "/3D/b.model" [] [] ["b"] none] [1, 0]
        (CModel.mk "" [] [] [] [] [] []) []).2.1 =
      [] ++ ([ScannerR.mk "/3D/a.model" [] [] ["a"] none,
              ScannerR.mk "/3D/b.model" [] [] ["b"] none].map
                (fun r => r.warnings)).flatten) :=
  ⟨by decide,
   (claim5_deterministic_merge_order
      [ScannerR.mk "/3D/a.model" [] [] ["a"] none,
       ScannerR.mk "/3D/b.model" [] [] ["b"] none] [1, 0]
      (CModel.mk "" [] [] [] [] [] []) [] (by decide)).1,
   (claim5_deterministic_merge_order
      [ScannerR.mk "/3D/a.model" [] [] ["a"] none,
       ScannerR.mk "/3D/b.model" [] [] ["b"] none] [1, 0]
      (CModel.mk "" [] [] [] [] [] []) [] (by decide)).2⟩

/-- Claim C1 (amended): in every run of `DecodeContext`, whenever the root
model part is decoded at all, every auxiliary decode event precedes it in the
event trace — the auxiliary parts are decoded (concurrently, to completion,
`processNonRootModels` waits on its `sync.WaitGroup`) before the root part is
decoded synchronously, which is the reverse of the order the claim states. -/
theorem claim1_aux_before_root (pkg : Pkg) (decodeResult : String → ScannerR)
    (rangeOrder : List Nat) (strict : Bool) (m0 : CModel)
    (hroot : DecodeEvent.rootDecoded ∈
      (DecodeContext pkg decodeResult rangeOrder strict m0).2.2.2) :
    ∃ pre,
      (DecodeContext pkg decodeResult rangeOrder strict m0).2.2.2 =
        pre ++ [DecodeEvent.rootDecoded]
      ∧ ∀ i, DecodeEvent.auxDecoded i ∈
          (DecodeContext pkg decodeResult rangeOrder strict m0).2.2.2 →
          DecodeEvent.auxDecoded i ∈ pre := by
  simp only [DecodeContext] at hroot ⊢
  split at hroot
  · simp at hroot
  · rename_i m1 nr rootFile heq
    split at hroot
    · simp [List.mem_map] at hroot
    · rename_i m2 w2 heq2
      refine ⟨rangeOrder.map DecodeEvent.auxDecoded, ?_, ?_⟩
      · simp only [heq, heq2]
      · intro i hi
        simp only [heq, heq2] at hi ⊢
        rcases List.mem_append.mp hi with hpre | hlast
        · exact hpre
        · simp at hlast

/-- Claim C1 counterexample: a package with one auxiliary model part.  In
`DecodeContext`'s event trace the auxiliary part's decode completes first and
the root part is decoded last — the first decode event is `auxDecoded 0`, not
`rootDecoded` — refuting the claim that the root model part is decoded
synchronously before any auxiliary part's decoding task starts
(`DecodeContext` calls `processNonRootModels` before `processRootModel`,
part_001 lines 184-193). -/
theorem claim1_counterexample :
    (DecodeContext
      (Pkg.mk none [Relationship.mk RelType3DModel "/3D/3dmodel.model"]
        [PkgFile.mk "/3D/3dmodel.model" "application/model" true
          [Relationship.mk RelType3DModel "/3D/other.model"],
         PkgFile.mk "/3D/other.model" "application/model" true []])
      (fun p => ScannerR.mk p [] [] [] none) [0] false
      (CModel.mk "" [] [] [] [] [] [])).2.2.2 =
      [DecodeEvent.auxDecoded 0, DecodeEvent.rootDecoded]
    ∧ (DecodeContext
      (Pkg.mk none [Relationship.mk RelType3DModel "/3D/3dmodel.model"]
        [PkgFile.mk "/3D/3dmodel.model" "application/model" true
          [Relationship.mk RelType3DModel "/3D/other.model"],
         PkgFile.mk "/3D/other.model" "application/model" true []])
      (fun p => ScannerR.mk p [] [] [] none) [0] false
      (CModel.mk "" [] [] [] [] [] [])).2.2.2.head? =
      some (DecodeEvent.auxDecoded 0) := by
  refine ⟨by decide, by decide⟩

/-- Witness for claim C1 (amended), at the same shape of package as the
counterexample but with a distinct auxiliary part name. -/
theorem claim1_aux_before_root_witness :
    DecodeEvent.rootDecoded ∈
      (DecodeContext
        (Pkg.mk none [Relationship.mk RelType3DModel "/3D/root.model"]
          [PkgFile.mk "/3D/root.model" "application/model" true
            [Relationship.mk RelType3DModel "/3D/aux1.model"],
           PkgFile.mk "/3D/aux1.model" "application/model" true []])
        (fun p => ScannerR.mk p [] [] [] none) [0] true
        (CModel.mk "" [] [] [] [] [] [])).2.2.2
    ∧ ∃ pre,
        (DecodeContext
          (Pkg.mk none [Relationship.mk RelType3DModel "/3D/root.model"]
            [PkgFile.mk "/3D/root.model" "application/model" true
              [Relationship.mk RelType3DModel "/3D/aux1.model"],
             PkgFile.mk "/3D/aux1.model" "application/model" true []])
          (fun p => ScannerR.mk p [] [] [] none) [0] true
          (CModel.mk "" [] [] [] [] [] [])).2.2.2 =
          pre ++ [DecodeEvent.rootDecoded]
        ∧ ∀ i, DecodeEvent.auxDecoded i ∈
            (DecodeContext
              (Pkg.mk none [Relationship.mk RelType3DModel "/3D/root.model"]
                [PkgFile.mk "/3D/root.model" "application/model" true
                  [Relationship.mk RelType3DModel "/3D/aux1.model"],
                 PkgFile.mk "/3D/aux1.model" "application/model" true []])
              (fun p => ScannerR.mk p [] [] [] none) [0] true
              (CModel.mk "" [] [] [] [] [] [])).2.2.2 →
            DecodeEvent.auxDecoded i ∈ pre :=
  ⟨by decide,
   claim1_aux_before_root
     (Pkg.mk none [Relationship.mk RelType3DModel "/3D/root.model"]
       [PkgFile.mk "/3D/root.model" "application/model" true
         [Relationship.mk RelType3DModel "/3D/aux1.model"],
        PkgFile.mk "/3D/aux1.model" "application/model" true []])
     (fun p => ScannerR.mk p [] [] [] none) [0] true
     (CModel.mk "" [] [] [] [] [] []) (by decide)⟩

theorem balancedToks_skip {s : List Token} (hb : BalancedToks s) :
    ∀ (ts : List Token) (d : Nat), skipSub (s ++ ts) d = skipSub ts d := by
  induction hb with
  | nil => intro ts d; rfl
  | @node n as s' t' _ _ ihs iht =>
    intro ts d
    simp only [List.cons_append, List.append_assoc]
    simp only [skipSub]
    rw [ihs]
    simp only [skipSub]
    exact iht ts d
  | @text c t' _ iht =>
    intro ts d
    simp only [List.cons_append]
    simp only [skipSub]
    exact iht ts d

/-- Claim C7: for every start element for which the current decoder offers no
child decoder (in particular any element in an unregistered foreign
namespace), the scan of the start element followed by its (balanced) content
and matching end element equals the scan of the rest of the stream from the
same stacks, decoder and state: the entire subtree is skipped without
instantiating a decoder, contributes nothing to the scanner state, and the
rest of the document decodes exactly as it would without the subtree. -/
theorem claim7_unknown_subtree_skipped {σ : Type} (ctxDone : Bool)
    (stack : List (GNode σ)) (names : List XName) (cur : GNode σ)
    (curName : XName) (st : ScanState σ) (n : XName) (as : List SAttr)
    (sub rest : List Token)
    (hchild : findChild cur.children n = none) (hsub : BalancedToks sub) :
    scanLoop ctxDone (Token.startEl n as :: (sub ++ Token.endEl n :: rest))
        stack names cur curName st =
      scanLoop ctxDone rest stack names cur curName st := by
  have hskip : skipSub (sub ++ Token.endEl n :: rest) 0 = (rest, none) := by
    rw [balancedToks_skip hsub]
    rfl
  rw [scanLoop, hchild]
  split
  · rename_i child heq
    simp at heq
  · split
    · rename_i rest' heq2
      rw [hskip] at heq2
      injection heq2 with h1 h2
      rw [h1]
    · rename_i rest' e heq2
      rw [hskip] at heq2
      injection heq2 with h1 h2
      exact absurd h2 (by simp)

/-- Witness for claim C7: a decoder offering only a core `resources` child
skips an unregistered foreign-namespace element whose subtree is nested three
levels deep, and the scan continues on the rest of the stream as if the
subtree were absent. -/
theorem claim7_unknown_subtree_skipped_witness :
    findChild (GNode.children ((GNode.mk
        [(XName.mk "core" "resources",
          GNode.mk [] (fun _ s => s) (fun _ s => s) (fun s => s))]
        (fun _ s => s) (fun _ s => s) (fun s => s)) : GNode Nat))
      (XName.mk "http://ext" "widget") = none
    ∧ BalancedToks
        [Token.startEl (XName.mk "http://ext" "w1") [],
         Token.startEl (XName.mk "http://ext" "w2") [],
         Token.charData "deep",
         Token.endEl (XName.mk "http://ext" "w2"),
         Token.endEl (XName.mk "http://ext" "w1")]
    ∧ scanLoop false
        (Token.startEl (XName.mk "http://ext" "widget") [] ::
          ([Token.startEl (XName.mk "http://ext" "w1") [],
            Token.startEl (XName.mk "http://ext" "w2") [],
            Token.charData "deep",
            Token.endEl (XName.mk "http://ext" "w2"),
            Token.endEl (XName.mk "http://ext" "w1")] ++
           Token.endEl (XName.mk "http://ext" "widget") :: [Token.charData "tail"]))
        [] [] (GNode.mk
          [(XName.mk "core" "resources",
            GNode.mk [] (fun _ s => s) (fun _ s => s) (fun s => s))]
          (fun _ s => s) (fun _ s => s) (fun s => s))
        (XName.mk "" "") (ScanState.mk [] (0 : Nat)) =
      scanLoop false [Token.charData "tail"]
        [] [] (GNode.mk
          [(XName.mk "core" "resources",
            GNode.mk [] (fun _ s => s) (fun _ s => s) (fun s => s))]
          (fun _ s => s) (fun _ s => s) (fun s => s))
        (XName.mk "" "") (ScanState.mk [] (0 : Nat)) := by
  refine ⟨rfl, ?_, ?_⟩
  · exact @BalancedToks.node (XName.mk "http://ext" "w1") []
      [Token.startEl (XName.mk "http://ext" "w2") [],
       Token.charData "deep",
       Token.endEl (XName.mk "http://ext" "w2")] []
      (@BalancedToks.node (XName.mk "http://ext" "w2") []
        [Token.charData "deep"] []
        (BalancedToks.text BalancedToks.nil) BalancedToks.nil)
      BalancedToks.nil
  · exact claim7_unknown_subtree_skipped false [] []
      (GNode.mk
        [(XName.mk "core" "resources",
          GNode.mk [] (fun _ s => s) (fun _ s => s) (fun s => s))]
        (fun _ s => s) (fun _ s => s) (fun s => s))
      (XName.mk "" "") (ScanState.mk [] (0 : Nat))
      (XName.mk "http://ext" "widget") []
      [Token.startEl (XName.mk "http://ext" "w1") [],
       Token.startEl (XName.mk "http://ext" "w2") [],
       Token.charData "deep",
       Token.endEl (XName.mk "http://ext" "w2"),
       Token.endEl (XName.mk "http://ext" "w1")]
      [Token.charData "tail"] rfl
      (@BalancedToks.node (XName.mk "http://ext" "w1") []
        [Token.startEl (XName.mk "http://ext" "w2") [],
         Token.charData "deep",
         Token.endEl (XName.mk "http://ext" "w2")] []
        (@BalancedToks.node (XName.mk "http://ext" "w2") []
          [Token.charData "deep"] []
          (BalancedToks.text BalancedToks.nil) BalancedToks.nil)
        BalancedToks.nil)

theorem skipSub_eof_nil : ∀ (ts : List Token) (d : Nat),
    (skipSub ts d).2 = some ScanErr.eof → (skipSub ts d).1 = [] := by
  intro ts
  induction ts with
  | nil => intro d _; rfl
  | cons t rest ih =>
    intro d h
    cases t with
    | startEl n as => exact ih (d + 1) h
    | charData s => exact ih d h
    | endEl n =>
      cases d with
      | zero => simp [skipSub] at h
      | succ d' => exact ih d' h
    | errTok m => simp [skipSub] at h

theorem scanLoop_nil {σ : Type} (ctxDone : Bool) (stack : List (GNode σ))
    (names : List XName) (cur : GNode σ) (curName : XName) (st : ScanState σ) :
    scanLoop ctxDone [] stack names cur curName st = (st, none, []) := by
  simp [scanLoop]

theorem scanLoop_errTok {σ : Type} (ctxDone : Bool) (msg : String)
    (rest : List Token) (stack : List (GNode σ)) (names : List XName)
    (cur : GNode σ) (curName : XName) (st : ScanState σ) :
    scanLoop ctxDone (Token.errTok msg :: rest) stack names cur curName st =
      (st, some (ScanErr.tokenErr msg), rest) := by
  simp [scanLoop]

theorem scanLoop_charData {σ : Type} (ctxDone : Bool) (s : String)
    (rest : List Token) (stack : List (GNode σ)) (names : List XName)
    (cur : GNode σ) (curName : XName) (st : ScanState σ) :
    scanLoop ctxDone (Token.charData s :: rest) stack names cur curName st =
      scanLoop ctxDone rest stack names cur curName (cur.onText s st) := by
  rw [scanLoop]

theorem scanLoop_start_child {σ : Type} (ctxDone : Bool) (n : XName)
    (as : List SAttr) (rest : List Token) (stack : List (GNode σ))
    (names : List XName) (cur child : GNode σ) (curName : XName)
    (st : ScanState σ) (hc : findChild cur.children n = some child) :
    scanLoop ctxDone (Token.startEl n as :: rest) stack names cur curName st =
      scanLoop ctxDone rest (cur :: stack) (curName :: names) child n
        (child.onStart as st) := by
  rw [scanLoop, hc]

theorem scanLoop_start_skip_ok {σ : Type} (ctxDone : Bool) (n : XName)
    (as : List SAttr) (rest rest' : List Token) (stack : List (GNode σ))
    (names : List XName) (cur : GNode σ) (curName : XName) (st : ScanState σ)
    (hc : findChild cur.children n = none)
    (hsk : skipSub rest 0 = (rest', none)) :
    scanLoop ctxDone (Token.startEl n as :: rest) stack names cur curName st =
      scanLoop ctxDone rest' stack names cur curName st := by
  rw [scanLoop, hc]
  split
  · rename_i r2 heq2
    simp at heq2
  · split
    · rename_i r2 heq2
      rw [hsk] at heq2
      injection heq2 with a b
      rw [a]
    · rename_i r2 e2 heq2
      rw [hsk] at heq2
      injection heq2 with a b
      exact absurd b (by simp)

theorem scanLoop_start_skip_err {σ : Type} (ctxDone : Bool) (n : XName)
    (as : List SAttr) (rest rest' : List Token) (e : ScanErr)
    (stack : List (GNode σ)) (names : List XName) (cur : GNode σ)
    (curName : XName) (st : ScanState σ)
    (hc : findChild cur.children n = none)
    (hsk : skipSub rest 0 = (rest', some e)) :
    scanLoop ctxDone (Token.startEl n as :: rest) stack names cur curName st =
      (st, some e, rest') := by
  rw [scanLoop, hc]
  split
  · rename_i r2 heq2
    simp at heq2
  · split
    · rename_i r2 heq2
      rw [hsk] at heq2
      injection heq2 with a b
      exact absurd b (by simp)
    · rename_i r2 e2 heq2
      rw [hsk] at heq2
      injection heq2 with a b
      injection b with b'
      rw [a, b']

theorem scanLoop_end_pop {σ : Type} (n : XName) (rest : List Token)
    (c : GNode σ) (stack' : List (GNode σ)) (nm : XName) (names' : List XName)
    (cur : GNode σ) (st : ScanState σ) :
    scanLoop false (Token.endEl n :: rest) (c :: stack') (nm :: names') cur n st =
      scanLoop false rest stack' names' c nm (cur.onEnd st) := by
  rw [scanLoop]
  simp

theorem scanLoop_end_pop_cancel {σ : Type} (n : XName) (rest : List Token)
    (c : GNode σ) (stack' : List (GNode σ)) (nm : XName) (names' : List XName)
    (cur : GNode σ) (st : ScanState σ) :
    scanLoop true (Token.endEl n :: rest) (c :: stack') (nm :: names') cur n st =
      (cur.onEnd st, some ScanErr.cancelled, rest) := by
  rw [scanLoop]
  simp

theorem scanLoop_end_panic_nilstack {σ : Type} (ctxDone : Bool) (n : XName)
    (rest : List Token) (names : List XName) (cur : GNode σ)
    (st : ScanState σ) :
    scanLoop ctxDone (Token.endEl n :: rest) [] names cur n st =
      (cur.onEnd st, some ScanErr.panicErr, rest) := by
  rw [scanLoop]
  simp

theorem scanLoop_end_panic_nilnames {σ : Type} (ctxDone : Bool) (n : XName)
    (rest : List Token) (c : GNode σ) (stack' : List (GNode σ)) (cur : GNode σ)
    (st : ScanState σ) :
    scanLoop ctxDone (Token.endEl n :: rest) (c :: stack') [] cur n st =
      (cur.onEnd st, some ScanErr.panicErr, rest) := by
  rw [scanLoop]
  simp

theorem scanLoop_end_nomatch {σ : Type} (n : XName) (rest : List Token)
    (stack : List (GNode σ)) (names : List XName) (cur : GNode σ)
    (curName : XName) (st : ScanState σ) (hn : curName ≠ n) :
    scanLoop false (Token.endEl n :: rest) stack names cur curName st =
      scanLoop false rest stack names cur curName st := by
  rw [scanLoop]
  simp [hn]

theorem scanLoop_end_nomatch_cancel {σ : Type} (n : XName) (rest : List Token)
    (stack : List (GNode σ)) (names : List XName) (cur : GNode σ)
    (curName : XName) (st : ScanState σ) (hn : curName ≠ n) :
    scanLoop true (Token.endEl n :: rest) stack names cur curName st =
      (st, some ScanErr.cancelled, rest) := by
  rw [scanLoop]
  simp [hn]

theorem scanLoop_complete {σ : Type} (ctxDone : Bool) :
    ∀ (N : Nat) (ts : List Token), ts.length ≤ N →
    ∀ (stack : List (GNode σ)) (names : List XName) (cur : GNode σ)
      (curName : XName) (st : ScanState σ),
      ((scanLoop ctxDone ts stack names cur curName st).2.1 = none ∨
       (scanLoop ctxDone ts stack names cur curName st).2.1 = some ScanErr.eof) →
      (scanLoop ctxDone ts stack names cur curName st).2.2 = [] := by
  intro N
  induction N with
  | zero =>
    intro ts hlen
    have hts : ts = [] := List.eq_nil_of_length_eq_zero (Nat.le_zero.mp hlen)
    subst hts
    intro stack names cur curName st _
    rw [scanLoop_nil]
  | succ N ih =>
    intro ts hlen stack names cur curName st h
    cases ts with
    | nil => rw [scanLoop_nil]
    | cons t rest =>
      have hlen' : rest.length ≤ N := by simp at hlen; omega
      cases t with
      | errTok msg =>
        rw [scanLoop_errTok] at h
        rcases h with h | h <;> simp at h
      | charData s =>
        rw [scanLoop_charData] at h ⊢
        exact ih rest hlen' _ _ _ _ _ h
      | startEl n as =>
        cases hc : findChild cur.children n with
        | some child =>
          rw [scanLoop_start_child ctxDone n as rest stack names cur child curName st hc] at h ⊢
          exact ih rest hlen' _ _ _ _ _ h
        | none =>
          rcases hsk : skipSub rest 0 with ⟨rest', e?⟩
          cases e? with
          | none =>
            rw [scanLoop_start_skip_ok ctxDone n as rest rest' stack names cur curName st hc hsk] at h ⊢
            have hle := skipSub_length_le rest 0
            rw [hsk] at hle
            simp at hle
            exact ih rest' (le_trans hle hlen') _ _ _ _ _ h
          | some e =>
            rw [scanLoop_start_skip_err ctxDone n as rest rest' e stack names cur curName st hc hsk] at h ⊢
            rcases h with h | h
            · simp at h
            · have he : e = ScanErr.eof := by simpa using h
              subst he
              have h2 := skipSub_eof_nil rest 0
              rw [hsk] at h2
              simpa using h2 rfl
      | endEl n =>
        by_cases hn : curName = n
        · subst hn
          cases stack with
          | nil =>
            rw [scanLoop_end_panic_nilstack] at h
            rcases h with h | h <;> simp at h
          | cons c stack' =>
            cases names with
            | nil =>
              rw [scanLoop_end_panic_nilnames] at h
              rcases h with h | h <;> simp at h
            | cons nm names' =>
              cases ctxDone with
              | true =>
                rw [scanLoop_end_pop_cancel] at h
                rcases h with h | h <;> simp at h
              | false =>
                rw [scanLoop_end_pop] at h ⊢
                exact ih rest hlen' _ _ _ _ _ h
        · cases ctxDone with
          | true =>
            rw [scanLoop_end_nomatch_cancel n rest stack names cur curName st hn] at h
            rcases h with h | h <;> simp at h
          | false =>
            rw [scanLoop_end_nomatch n rest stack names cur curName st hn] at h ⊢
            exact ih rest hlen' _ _ _ _ _ h

/-- Claim C3 (spec-modelled): when strict mode is enabled and at least one
non-fatal warning was collected during decoding, the decode entry point
returns an error, and the promotion happens only after the full decode
completes: whenever the scan ends without a fatal error, the entire token
stream was consumed, so a warning never interrupts parsing mid-stream.  The
warning collection and the strict-mode promotion live in the `Scanner` type
outside `src/` and are modelled from the spec (sections 4.3 and 7): warnings
accumulate in the scanner state without touching the loop's terminal error,
and the entry point promotes them only after `decodeModelFile` returns. -/
theorem claim3_strict_promotes_after_full_decode {σ : Type} (strict : Bool)
    (ts : List Token) (top : GNode σ) (u : σ)
    (herr : (decodeModelFile false ts top u).2.1 = none)
    (hstrict : strict = true)
    (hwarn : (decodeModelFile false ts top u).1.warnings ≠ []) :
    (decodeModelFile false ts top u).2.2 = []
    ∧ (unmarshalModel strict false ts top u).2 = some DecodeErr.strictWarnings := by
  have hcomp : (decodeModelFile false ts top u).2.2 = [] := by
    simp only [decodeModelFile] at herr ⊢
    by_cases he : (scanLoop false ts [] [] top (XName.mk "" "")
        (ScanState.mk [] u)).2.1 = some ScanErr.eof
    · exact scanLoop_complete false ts.length ts le_rfl [] [] top _ _ (Or.inr he)
    · rw [if_neg he] at herr
      exact scanLoop_complete false ts.length ts le_rfl [] [] top _ _ (Or.inl herr)
  refine ⟨hcomp, ?_⟩
  simp only [unmarshalModel]
  rw [herr, hstrict]
  have hie : (decodeModelFile false ts top u).1.warnings.isEmpty = false := by
    simpa using hwarn
  rw [hie]
  rfl

/-- Witness for claim C3: a one-element strict-mode document whose `model`
element decoder records one warning; the scan consumes the whole stream and
the entry point promotes the warning to an error afterwards. -/
theorem claim3_strict_promotes_after_full_decode_witness :
    (decodeModelFile false
      [Token.startEl (XName.mk "ns" "model") [], Token.endEl (XName.mk "ns" "model")]
      ((GNode.mk [(XName.mk "ns" "model",
          GNode.mk [] (fun _ s => ScanState.mk (s.warnings ++ ["warn"]) s.user)
            (fun _ s => s) (fun s => s))]
        (fun _ s => s) (fun _ s => s) (fun s => s)) : GNode Nat) 0).2.1 = none
    ∧ (decodeModelFile false
      [Token.startEl (XName.mk "ns" "model") [], Token.endEl (XName.mk "ns" "model")]
      ((GNode.mk [(XName.mk "ns" "model",
          GNode.mk [] (fun _ s => ScanState.mk (s.warnings ++ ["warn"]) s.user)
            (fun _ s => s) (fun s => s))]
        (fun _ s => s) (fun _ s => s) (fun s => s)) : GNode Nat) 0).1.warnings ≠ []
    ∧ ((decodeModelFile false
      [Token.startEl (XName.mk "ns" "model") [], Token.endEl (XName.mk "ns" "model")]
      ((GNode.mk [(XName.mk "ns" "model",
          GNode.mk [] (fun _ s => ScanState.mk (s.warnings ++ ["warn"]) s.user)
            (fun _ s => s) (fun s => s))]
        (fun _ s => s) (fun _ s => s) (fun s => s)) : GNode Nat) 0).2.2 = []
      ∧ (unmarshalModel true false
        [Token.startEl (XName.mk "ns" "model") [], Token.endEl (XName.mk "ns" "model")]
        ((GNode.mk [(XName.mk "ns" "model",
            GNode.mk [] (fun _ s => ScanState.mk (s.warnings ++ ["warn"]) s.user)
              (fun _ s => s) (fun s => s))]
          (fun _ s => s) (fun _ s => s) (fun s => s)) : GNode Nat) 0).2 =
        some DecodeErr.strictWarnings) := by
  refine ⟨?_, ?_, ?_⟩
  · simp [decodeModelFile, scanLoop, findChild, GNode.children, GNode.onStart,
      GNode.onEnd, GNode.onText]
  · simp [decodeModelFile, scanLoop, findChild, GNode.children, GNode.onStart,
      GNode.onEnd, GNode.onText]
  · exact claim3_strict_promotes_after_full_decode true
      [Token.startEl (XName.mk "ns" "model") [], Token.endEl (XName.mk "ns" "model")]
      (GNode.mk [(XName.mk "ns" "model",
          GNode.mk [] (fun _ s => ScanState.mk (s.warnings ++ ["warn"]) s.user)
            (fun _ s => s) (fun s => s))]
        (fun _ s => s) (fun _ s => s) (fun s => s)) 0
      (by simp [decodeModelFile, scanLoop, findChild, GNode.children, GNode.onStart,
        GNode.onEnd, GNode.onText])
      rfl
      (by simp [decodeModelFile, scanLoop, findChild, GNode.children, GNode.onStart,
        GNode.onEnd, GNode.onText])
